import Mathlib

/-!
Verification of the `adc` Active-Directory client library.

The source under scrutiny is the Go package `adc`: typed lookups of users
and groups over an LDAP-style directory (`user.go`, `group.go`), plus an
older snapshot of the group code (`src/unnamed/part_000`).  The shallow
embedding below translates those functions into pure Lean functions.

Modelling conventions:
- An LDAP search is observable only through its filter string (the mock
  client of the repository also matches entries on the exact filter
  string), so the abstract directory is a function from filter strings to
  entry lists; writes are a function from (dn, attribute, values) to an
  optional error.
- Every client operation returns its result together with a trace of the
  directory calls it made (`Call.search` / `Call.modify`), so that claims
  about "no write performed" or "no directory call at all" are statements
  about the trace.
- Go's `(value, error)` returns are rendered as `Except String` (or as a
  `Nat × Option String` pair for the membership counters, which Go returns
  alongside the error).
- `fmt.Sprintf` with a single `%s` verb is rendered as a `Template`:
  a prefix/suffix pair around the substituted value.
- The concurrent per-identifier fan-out of the membership operations is
  rendered as a deterministic left-to-right schedule: every resolution
  task runs to completion (as after `wg.Wait()` in the source) and results
  are collected in input order, one legal ordering of the channel drain.
-/

namespace Adc

/-- A `fmt.Sprintf` format string with a single `%s` verb: the text before
the verb and the text after it. -/
structure Template where
  pre : String
  post : String
deriving DecidableEq, Repr

/-- Instantiating a single-verb format string, as `fmt.Sprintf(t, s)` does. -/
def Template.subst (t : Template) (s : String) : String :=
  t.pre ++ s ++ t.post

/-- Character-level model of go-ldap `EscapeFilter`: a character is escaped
when it is `(`, `)`, `*`, `\`, NUL, or outside 7-bit ASCII (the byte-level
escaping of multi-byte runes is collapsed to one escape per character;
faithful on ASCII data). -/
def mustEscape (c : Char) : Bool :=
  c.toNat > 0x7f || c = '(' || c = ')' || c = '\\' || c = '*' || c.toNat = 0

/-- Lower-case hexadecimal digit. -/
def hexDigit (n : Nat) : Char :=
  if n < 10 then Char.ofNat (48 + n) else Char.ofNat (87 + n)

/-- Escape of one character: `\xx` with two lower-case hex digits, as
go-ldap renders it. -/
def escapeChar (c : Char) : List Char :=
  if mustEscape c then ['\\', hexDigit (c.toNat / 16 % 16), hexDigit (c.toNat % 16)]
  else [c]

/-- Model of go-ldap `ldap.EscapeFilter`. -/
def escapeFilter (s : String) : String :=
  String.mk (s.data.map escapeChar).flatten

/-- One attribute of a raw directory entry: `ldap.EntryAttribute`. -/
structure EntryAttribute where
  Name : String
  Values : List String
deriving DecidableEq, Repr

/-- A raw directory entry: `ldap.Entry`. -/
structure Entry where
  DN : String
  Attributes : List EntryAttribute
deriving DecidableEq, Repr

/-- go-ldap `Entry.GetAttributeValues`: values of the first attribute with
the given name, `[]` when absent. -/
def Entry.GetAttributeValues (e : Entry) (attrName : String) : List String :=
  match e.Attributes.find? (fun a => a.Name = attrName) with
  | some a => a.Values
  | none => []

/-- go-ldap `Entry.GetAttributeValue`: first value of the named attribute,
or the empty string when the attribute is absent or empty. -/
def Entry.GetAttributeValue (e : Entry) (attrName : String) : String :=
  (e.GetAttributeValues attrName).headD ""

/-- `adc.UserGroup`: lightweight relation record on a user. -/
structure UserGroup where
  DN : String
  Id : String
deriving DecidableEq, Repr

/-- `adc.User` (user.go).  The `Attributes` map is modelled as an
association list in entry order; each attribute is flattened to its first
value, as in the source. -/
structure User where
  DN : String
  Id : String
  Attributes : List (String × String)
  Groups : List UserGroup
deriving DecidableEq, Repr

/-- `User.IsGroupMember` (user.go): whether a group with the given Id is
among the user's groups. -/
def User.IsGroupMember (u : User) (groupId : String) : Bool :=
  u.Groups.any (fun g => g.Id = groupId)

/-- `adc.GroupMember`: lightweight relation record on a group. -/
structure GroupMember where
  DN : String
  Id : String
deriving DecidableEq, Repr

/-- `adc.Group` (group.go), flattened like `User`. -/
structure Group where
  DN : String
  Id : String
  Attributes : List (String × String)
  Members : List GroupMember
deriving DecidableEq, Repr

/-- `Group.MembersDn` (group.go): the member DNs in member order. -/
def Group.MembersDn (g : Group) : List String :=
  g.Members.map (fun m => m.DN)

/-- `Group.MembersId` (group.go): the member Ids in member order. -/
def Group.MembersId (g : Group) : List String :=
  g.Members.map (fun m => m.Id)

/-- Modelled from the spec: the configuration file of the repository is not
under src/ (spec §6: "Configuration consumed (external)").  Only the fields
the embedded operations observe are kept: the users id-attribute name and
the by-id / by-dn / groups-of-user filter templates. -/
structure UsersConfig where
  IdAttribute : String
  FilterById : Template
  FilterByDn : Template
  FilterGroupsByDn : Template
deriving DecidableEq, Repr

/-- Modelled from the spec: group-side configuration, as `UsersConfig`. -/
structure GroupsConfig where
  IdAttribute : String
  FilterById : Template
  FilterByDn : Template
  FilterMembersByDn : Template
deriving DecidableEq, Repr

/-- Modelled from the spec: the client configuration, restricted to the
observable fields (search bases, attribute lists and timeouts only shape
the wire request, which the filter-keyed directory model does not see). -/
structure Config where
  Users : UsersConfig
  Groups : GroupsConfig
deriving DecidableEq, Repr

/-- One directory call made by a client operation: a search with its filter
string, or an attribute-replace write. -/
inductive Call where
  | search (filter : String)
  | modify (dn : String) (attrName : String) (values : List String)
deriving DecidableEq, Repr

/-- Whether a call is an attribute-replace write. -/
def Call.isModify : Call → Bool
  | Call.search _ => false
  | Call.modify _ _ _ => true

/-- The write calls of a trace. -/
def writesOf (t : List Call) : List Call :=
  t.filter Call.isModify

/-- The abstract directory capability: searches keyed by filter string
(as in the repository's mock client), writes returning an optional error. -/
structure Directory where
  search : String → Except String (List Entry)
  modify : String → String → List String → Option String

/-- The `adc.Client`, reduced to its configuration and its directory
capability (`cfg` in the old snapshot, `Config` in the current one). -/
structure Client where
  cfg : Config
  dir : Directory

/-- `adc.GetUserArgs` (user.go).  The `Attributes` override only changes
the requested attribute set, which the entry-level model does not observe. -/
structure GetUserArgs where
  Id : String := ""
  Dn : String := ""
  Filter : String := ""
  Attributes : Option (List String) := none
  SkipGroupsSearch : Bool := false
deriving DecidableEq, Repr

/-- `GetUserArgs.Validate` (user.go): error when Id, Dn and Filter are all
empty. -/
def GetUserArgs.Validate (args : GetUserArgs) : Option String :=
  if args.Id = "" ∧ args.Dn = "" ∧ args.Filter = "" then
    some "neither of ID, DN or Filter provided"
  else none

/-- `adc.GetGroupArgs` (group.go). -/
structure GetGroupArgs where
  Id : String := ""
  Dn : String := ""
  Filter : String := ""
  Attributes : Option (List String) := none
  SkipMembersSearch : Bool := false
deriving DecidableEq, Repr

/-- `GetGroupArgs.Validate` (group.go). -/
def GetGroupArgs.Validate (args : GetGroupArgs) : Option String :=
  if args.Id = "" ∧ args.Dn = "" ∧ args.Filter = "" then
    some "neither of ID, DN or Filter provided"
  else none

/-- Modelled from the spec: `Client.searchEntry` lives in the client file
that is not under src/.  Per spec §3 and §7, a point lookup runs one
search; a search error is propagated, no match is an absent result with no
error, and the first match wins. -/
def searchEntry (cl : Client) (filter : String) : Except String (Option Entry) × List Call :=
  ((cl.dir.search filter).map List.head?, [Call.search filter])

/-- Modelled from the spec: `Client.searchEntries` (client file not under
src/) runs one search and returns all matching entries. -/
def searchEntries (cl : Client) (filter : String) : Except String (List Entry) × List Call :=
  (cl.dir.search filter, [Call.search filter])

/-- Modelled from the spec: `Client.updateAttribute` (client file not under
src/) issues exactly one attribute-replace write of the given values to the
given DN (spec §4.4 step 8). -/
def updateAttribute (cl : Client) (dn : String) (attrName : String) (values : List String) :
    Option String × List Call :=
  (cl.dir.modify dn attrName values, [Call.modify dn attrName values])

/-- Filter selection of `GetUser` (user.go lines 126-134): the by-id filter
is computed first and overwritten by the by-DN filter when a DN is given;
an explicit Filter argument short-circuits both. -/
def getUserFilter (cfg : Config) (args : GetUserArgs) : String :=
  if args.Filter ≠ "" then args.Filter
  else
    let f := cfg.Users.FilterById.subst args.Id
    if args.Dn ≠ "" then cfg.Users.FilterByDn.subst (escapeFilter args.Dn) else f

/-- Filter selection of `GetGroup` (group.go lines 63-71), as
`getUserFilter`. -/
def getGroupFilter (cfg : Config) (args : GetGroupArgs) : String :=
  if args.Filter ≠ "" then args.Filter
  else
    let f := cfg.Groups.FilterById.subst args.Id
    if args.Dn ≠ "" then cfg.Groups.FilterByDn.subst (escapeFilter args.Dn) else f

/-- Entry-to-User mapping of `GetUser` (user.go lines 156-163): Id from the
users id-attribute, every attribute flattened to its first value. -/
def userFromEntry (cfg : Config) (entry : Entry) : User :=
  { DN := entry.DN
    Id := entry.GetAttributeValue cfg.Users.IdAttribute
    Attributes := entry.Attributes.map (fun a => (a.Name, entry.GetAttributeValue a.Name))
    Groups := [] }

/-- Entry-to-Group mapping of `GetGroup` (group.go lines 93-100). -/
def groupFromEntry (cfg : Config) (entry : Entry) : Group :=
  { DN := entry.DN
    Id := entry.GetAttributeValue cfg.Groups.IdAttribute
    Attributes := entry.Attributes.map (fun a => (a.Name, entry.GetAttributeValue a.Name))
    Members := [] }

/-- `Client.getUserGroups` (user.go lines 208-229): search groups holding
the user's DN, map each to a `UserGroup` with the groups id-attribute. -/
def getUserGroups (cl : Client) (dn : String) : Except String (List UserGroup) × List Call :=
  match searchEntries cl (cl.cfg.Users.FilterGroupsByDn.subst (escapeFilter dn)) with
  | (Except.error e, t) => (Except.error e, t)
  | (Except.ok es, t) =>
      (Except.ok (es.map (fun e => { DN := e.DN, Id := e.GetAttributeValue cl.cfg.Groups.IdAttribute : UserGroup })), t)

/-- `Client.getGroupMembers` (group.go lines 197-218, identical in the old
snapshot): search users holding the group's DN, map each to a
`GroupMember` whose Id is read from the groups id-attribute. -/
def getGroupMembers (cl : Client) (dn : String) : Except String (List GroupMember) × List Call :=
  match searchEntries cl (cl.cfg.Groups.FilterMembersByDn.subst (escapeFilter dn)) with
  | (Except.error e, t) => (Except.error e, t)
  | (Except.ok es, t) =>
      (Except.ok (es.map (fun e => { DN := e.DN, Id := e.GetAttributeValue cl.cfg.Groups.IdAttribute : GroupMember })), t)

/-- The user lookup after filter selection (user.go lines 136-173): point
search, entry mapping, and — unless skipped — the groups sub-search. -/
def getUserByFilter (cl : Client) (filter : String) (skip : Bool) :
    Except String (Option User) × List Call :=
  match searchEntry cl filter with
  | (Except.error e, t) => (Except.error e, t)
  | (Except.ok none, t) => (Except.ok none, t)
  | (Except.ok (some entry), t) =>
    let result := userFromEntry cl.cfg entry
    if skip then (Except.ok (some result), t)
    else
      match getUserGroups cl entry.DN with
      | (Except.error e, t2) => (Except.error ("can\x27t get user groups: " ++ e), t ++ t2)
      | (Except.ok gs, t2) => (Except.ok (some { result with Groups := gs }), t ++ t2)

/-- The group lookup after filter selection (group.go lines 73-110; the
older snapshot repeats this body verbatim). -/
def getGroupByFilter (cl : Client) (filter : String) (skip : Bool) :
    Except String (Option Group) × List Call :=
  match searchEntry cl filter with
  | (Except.error e, t) => (Except.error e, t)
  | (Except.ok none, t) => (Except.ok none, t)
  | (Except.ok (some entry), t) =>
    let result := groupFromEntry cl.cfg entry
    if skip then (Except.ok (some result), t)
    else
      match getGroupMembers cl entry.DN with
      | (Except.error e, t2) => (Except.error ("can\x27t get group members: " ++ e), t ++ t2)
      | (Except.ok ms, t2) => (Except.ok (some { result with Members := ms }), t ++ t2)

/-- `Client.GetUser` (user.go lines 121-174). -/
def GetUser (cl : Client) (args : GetUserArgs) : Except String (Option User) × List Call :=
  match args.Validate with
  | some e => (Except.error e, [])
  | none => getUserByFilter cl (getUserFilter cl.cfg args) args.SkipGroupsSearch

/-- `Client.GetGroup` (group.go lines 59-111). -/
def GetGroup (cl : Client) (args : GetGroupArgs) : Except String (Option Group) × List Call :=
  match args.Validate with
  | some e => (Except.error e, [])
  | none => getGroupByFilter cl (getGroupFilter cl.cfg args) args.SkipMembersSearch

/-- Per-identifier resolution task of `AddGroupMembers` (group.go lines
254-272): a user-lookup error is reported (wrapped) on the error channel;
an unknown identifier or an identifier already a member is skipped;
otherwise the user's DN is delivered for addition. -/
def resolveAddMember (cl : Client) (groupId : String) (userId : String) :
    Except String (Option String) × List Call :=
  match GetUser cl { Id := userId } with
  | (Except.error e, t) => (Except.error ("can\x27t get account \x27" ++ userId ++ "\x27: " ++ e), t)
  | (Except.ok none, t) => (Except.ok none, t)
  | (Except.ok (some user), t) =>
      if user.IsGroupMember groupId then (Except.ok none, t) else (Except.ok (some user.DN), t)

/-- Per-identifier resolution task of `DeleteGroupMembers` (group.go lines
330-348): as `resolveAddMember`, but an identifier that is not currently a
member is the one skipped. -/
def resolveDelMember (cl : Client) (groupId : String) (userId : String) :
    Except String (Option String) × List Call :=
  match GetUser cl { Id := userId } with
  | (Except.error e, t) => (Except.error ("can\x27t get account \x27" ++ userId ++ "\x27: " ++ e), t)
  | (Except.ok none, t) => (Except.ok none, t)
  | (Except.ok (some user), t) =>
      if user.IsGroupMember groupId then (Except.ok (some user.DN), t) else (Except.ok none, t)

/-- The goroutine-per-identifier fan-out, as a deterministic left-to-right
schedule: every task runs to completion (`wg.Wait()`), results in input
order. -/
def resolveAll {α : Type} (f : String → α × List Call) : List String → List α × List Call
  | [] => ([], [])
  | userId :: rest =>
      let r := f userId
      let rs := resolveAll f rest
      (r.fst :: rs.fst, r.snd ++ rs.snd)

/-- Draining the error channel (group.go lines 278-282): the first error
delivered, if any. -/
def firstError : List (Except String (Option String)) → Option String
  | [] => none
  | Except.error e :: _ => some e
  | Except.ok _ :: rest => firstError rest

/-- Draining the DN channel (group.go lines 284-287): the DNs delivered by
the non-skipped resolutions, in schedule order. -/
def collected : List (Except String (Option String)) → List String
  | [] => []
  | Except.error _ :: rest => collected rest
  | Except.ok none :: rest => collected rest
  | Except.ok (some dn) :: rest => dn :: collected rest

/-- `popAddGroupMembers` (group.go lines 304-312): existing member DNs
followed by the DNs to add. -/
def popAddGroupMembers (g : Group) (toAdd : List String) : List String :=
  if toAdd.isEmpty then g.MembersDn
  else g.MembersDn ++ toAdd

/-- `popDelGroupMembers` (group.go lines 380-388): the loop appending each
existing member DN that is not slated for deletion. -/
def popDelGroupMembers (g : Group) (toDel : List String) : List String :=
  g.MembersDn.foldl (fun result memberDN =>
    if !(toDel.contains memberDN) then result ++ [memberDN] else result) []

/-- `Client.AddGroupMembers` (group.go lines 239-302): fetch the group,
resolve every identifier, fail the whole batch on any resolution error,
return `(0, nil)` when nothing qualifies, otherwise replace the member
attribute with old-members ++ new-members and return the number added. -/
def AddGroupMembers (cl : Client) (groupId : String) (membersIds : List String) :
    (Nat × Option String) × List Call :=
  let p := GetGroup cl { Id := groupId }
  match p.fst with
  | Except.error e => ((0, some ("can\x27t get group: " ++ e)), p.snd)
  | Except.ok none => ((0, some ("group \x27" ++ groupId ++ "\x27 not found by ID")), p.snd)
  | Except.ok (some group) =>
    let rs := resolveAll (resolveAddMember cl groupId) membersIds
    match firstError rs.fst with
    | some e => ((0, some e), p.snd ++ rs.snd)
    | none =>
      let toAdd := collected rs.fst
      if toAdd.isEmpty then ((0, none), p.snd ++ rs.snd)
      else
        let upd := updateAttribute cl group.DN "member" (popAddGroupMembers group toAdd)
        match upd.fst with
        | some e => ((0, some e), p.snd ++ rs.snd ++ upd.snd)
        | none => ((toAdd.length, none), p.snd ++ rs.snd ++ upd.snd)

/-- `Client.DeleteGroupMembers` (group.go lines 315-378), the mirror image
of `AddGroupMembers` for removal. -/
def DeleteGroupMembers (cl : Client) (groupId : String) (membersIds : List String) :
    (Nat × Option String) × List Call :=
  let p := GetGroup cl { Id := groupId }
  match p.fst with
  | Except.error e => ((0, some ("can\x27t get group: " ++ e)), p.snd)
  | Except.ok none => ((0, some ("group \x27" ++ groupId ++ "\x27 not found by ID")), p.snd)
  | Except.ok (some group) =>
    let rs := resolveAll (resolveDelMember cl groupId) membersIds
    match firstError rs.fst with
    | some e => ((0, some e), p.snd ++ rs.snd)
    | none =>
      let toDel := collected rs.fst
      if toDel.isEmpty then ((0, none), p.snd ++ rs.snd)
      else
        let upd := updateAttribute cl group.DN "member" (popDelGroupMembers group toDel)
        match upd.fst with
        | some e => ((0, some e), p.snd ++ rs.snd ++ upd.snd)
        | none => ((toDel.length, none), p.snd ++ rs.snd ++ upd.snd)

/-- `adc.GetGroupequest` of the older snapshot (src/unnamed/part_000): no
`Filter` field.  The nil-pointer guard of its `Validate` has no
counterpart on values. -/
structure GetGroupequest where
  Id : String := ""
  Dn : String := ""
  Attributes : Option (List String) := none
  SkipMembersSearch : Bool := false
deriving DecidableEq, Repr

/-- `GetGroupequest.Validate` (src/unnamed/part_000): error when both Id
and Dn are empty. -/
def GetGroupequest.Validate (r : GetGroupequest) : Option String :=
  if r.Id = "" ∧ r.Dn = "" then some "neither of ID of DN provided"
  else none

/-- Filter selection of the older `GetGroup` (src/unnamed/part_000 lines
64-67): no Filter short-circuit, by-id overwritten by by-DN. -/
def oldGetGroupFilter (cfg : Config) (r : GetGroupequest) : String :=
  let f := cfg.Groups.FilterById.subst r.Id
  if r.Dn ≠ "" then cfg.Groups.FilterByDn.subst (escapeFilter r.Dn) else f

/-- `Client.GetGroup` of the older snapshot (src/unnamed/part_000): no
Filter argument, otherwise the lookup body of the current `GetGroup`. -/
def OldGetGroup (cl : Client) (r : GetGroupequest) : Except String (Option Group) × List Call :=
  match r.Validate with
  | some e => (Except.error e, [])
  | none => getGroupByFilter cl (oldGetGroupFilter cl.cfg r) r.SkipMembersSearch

/-- Modelled from the spec: the older snapshot's user-lookup file is not
under src/ (src/unnamed holds only its group code).  Per the spec (§9,
"two observed variants ... handle a single resolution failure differently"
— and differ only there), the older point lookup by id is modelled by the
current `GetUser`. -/
def OldGetUser (cl : Client) (userId : String) : Except String (Option User) × List Call :=
  GetUser cl { Id := userId }

/-- Per-identifier resolution task of the older `AddGroupMembers`
(src/unnamed/part_000 lines 160-172): a lookup error is silently dropped
(the task just returns), everything else as in the current variant. -/
def oldResolveAddMember (cl : Client) (groupId : String) (userId : String) :
    Option String × List Call :=
  match OldGetUser cl userId with
  | (Except.error _, t) => (none, t)
  | (Except.ok none, t) => (none, t)
  | (Except.ok (some user), t) =>
      if user.IsGroupMember groupId then (none, t) else (some user.DN, t)

/-- Draining the DN channel of the older variant: the delivered DNs in
schedule order. -/
def collectedOpts : List (Option String) → List String
  | [] => []
  | none :: rest => collectedOpts rest
  | some dn :: rest => dn :: collectedOpts rest

/-- `Client.AddGroupMembers` of the older snapshot (src/unnamed/part_000
lines 151-196): no error channel — a failed resolution is skipped and the
batch proceeds. -/
def OldAddGroupMembers (cl : Client) (groupId : String) (membersIds : List String) :
    (Nat × Option String) × List Call :=
  let p := OldGetGroup cl { Id := groupId }
  match p.fst with
  | Except.error e => ((0, some ("can\x27t get group: " ++ e)), p.snd)
  | Except.ok none => ((0, some ("group \x27" ++ groupId ++ "\x27 not found by ID")), p.snd)
  | Except.ok (some group) =>
    let rs := resolveAll (oldResolveAddMember cl groupId) membersIds
    let toAdd := collectedOpts rs.fst
    if toAdd.isEmpty then ((0, none), p.snd ++ rs.snd)
    else
      let upd := updateAttribute cl group.DN "member" (popAddGroupMembers group toAdd)
      match upd.fst with
      | some e => ((0, some e), p.snd ++ rs.snd ++ upd.snd)
      | none => ((toAdd.length, none), p.snd ++ rs.snd ++ upd.snd)

/-- The paging control carried by a paged search response: a paging cookie
(`ldap.ControlPaging`) or a control of another type (the `!ok` type
assertion in the source). -/
inductive RespControl where
  | paging (cookie : List Nat)
  | other
deriving DecidableEq, Repr

/-- One server response to a paged search: its entries and its first
control (`none` models a response whose control slice is nil). -/
structure PageResp where
  entries : List Entry
  controls : Option RespControl
deriving DecidableEq, Repr

/-- The loop exit test of `ListUsers`/`ListGroups` (user.go lines 86-97,
group.go lines 142-153): stop when the response carries no controls, when
its first control is not a paging control, or when the returned paging
cookie is empty. -/
def pageStops (r : PageResp) : Bool :=
  match r.controls with
  | none => true
  | some RespControl.other => true
  | some (RespControl.paging cookie) => cookie.isEmpty

/-- The paged-search loop of `ListUsers`/`ListGroups` (user.go lines 76-100,
group.go lines 132-156), over the sequence of responses the server gives
to the successive requests: append each page's entries, stop at the first
stopping response, propagate a search error.  The page-size and cookie of
each request are observable only by the server and are absorbed into the
response sequence. -/
def pagedSearchLoop : List (Except String PageResp) → Except String (List Entry)
  | [] => Except.ok []
  | Except.error e :: _ => Except.error e
  | Except.ok r :: rest =>
    if pageStops r then Except.ok r.entries
    else
      match pagedSearchLoop rest with
      | Except.error e => Except.error e
      | Except.ok es => Except.ok (r.entries ++ es)

/-- Entry-to-Group mapping of `ListGroups` (group.go lines 162-173): note
the source reads the id from `Config.Users.IdAttribute`, not the groups
id-attribute; members are not populated. -/
def listGroupFromEntry (cfg : Config) (entry : Entry) : Group :=
  { DN := entry.DN
    Id := entry.GetAttributeValue cfg.Users.IdAttribute
    Attributes := entry.Attributes.map (fun a => (a.Name, entry.GetAttributeValue a.Name))
    Members := [] }

/-- `Client.ListUsers` (user.go lines 57-119): run the paged loop, return
nil with no error when no entry was accumulated, otherwise map every entry
to a `User` (groups not populated).  `pageSize` only parameterizes the
paging control sent to the server. -/
def ListUsers (cl : Client) (pageSize : Nat) (resps : List (Except String PageResp)) :
    Except String (Option (List User)) :=
  match pagedSearchLoop resps with
  | Except.error e => Except.error e
  | Except.ok entries =>
    if entries.isEmpty then Except.ok none
    else Except.ok (some (entries.map (userFromEntry cl.cfg)))

/-- `Client.ListGroups` (group.go lines 113-175), as `ListUsers` with the
`listGroupFromEntry` mapping. -/
def ListGroups (cl : Client) (pageSize : Nat) (resps : List (Except String PageResp)) :
    Except String (Option (List Group)) :=
  match pagedSearchLoop resps with
  | Except.error e => Except.error e
  | Except.ok entries =>
    if entries.isEmpty then Except.ok none
    else Except.ok (some (entries.map (listGroupFromEntry cl.cfg)))

/-- Whether a Go-style `(value, error)` result carries no error. -/
def isOkResult {α : Type} : Except String α → Bool
  | Except.ok _ => true
  | Except.error _ => false

/-- A concrete configuration in the shape of the repository's test
fixture: distinct filter templates per lookup kind. -/
def mockCfg : Config :=
  { Users :=
      { IdAttribute := "sAMAccountName"
        FilterById := { pre := "(u-id=", post := ")" }
        FilterByDn := { pre := "(u-dn=", post := ")" }
        FilterGroupsByDn := { pre := "(memberOf=", post := ")" } }
    Groups :=
      { IdAttribute := "sAMAccountName"
        FilterById := { pre := "(g-id=", post := ")" }
        FilterByDn := { pre := "(g-dn=", post := ")" }
        FilterMembersByDn := { pre := "(member=", post := ")" } } }

/-- Fixture entry: user1, a member of group1. -/
def eUser1 : Entry :=
  { DN := "CN=user1,DC=x", Attributes := [{ Name := "sAMAccountName", Values := ["user1"] }] }

/-- Fixture entry: user2, not a member of any group. -/
def eUser2 : Entry :=
  { DN := "CN=user2,DC=x", Attributes := [{ Name := "sAMAccountName", Values := ["user2"] }] }

/-- Fixture entry: group1, whose sole member is user1. -/
def eGroup1 : Entry :=
  { DN := "CN=group1,DC=x", Attributes := [{ Name := "sAMAccountName", Values := ["group1"] }] }

/-- Fixture search table, keyed by exact filter string like the mock client
of the repository; the identifier `bad` fails with a hard error. -/
def mockSearch (f : String) : Except String (List Entry) :=
  if f = "(u-id=user1)" then Except.ok [eUser1]
  else if f = "(u-id=user2)" then Except.ok [eUser2]
  else if f = "(u-id=bad)" then Except.error "error for tests"
  else if f = "(g-id=group1)" then Except.ok [eGroup1]
  else if f = "(member=CN=group1,DC=x)" then Except.ok [eUser1]
  else if f = "(memberOf=CN=user1,DC=x)" then Except.ok [eGroup1]
  else Except.ok []

/-- Fixture client whose writes always succeed. -/
def mockCl : Client :=
  { cfg := mockCfg, dir := { search := mockSearch, modify := fun _ _ _ => none } }

/-- Fixture search table with no failing filter: every search succeeds. -/
def mockOkSearch (f : String) : Except String (List Entry) :=
  if f = "(u-id=user1)" then Except.ok [eUser1]
  else if f = "(u-id=user2)" then Except.ok [eUser2]
  else if f = "(g-id=group1)" then Except.ok [eGroup1]
  else if f = "(member=CN=group1,DC=x)" then Except.ok [eUser1]
  else if f = "(memberOf=CN=user1,DC=x)" then Except.ok [eGroup1]
  else Except.ok []

/-- Fixture client over `mockOkSearch`. -/
def mockOkCl : Client :=
  { cfg := mockCfg, dir := { search := mockOkSearch, modify := fun _ _ _ => none } }

/-- The `Group` value `GetGroup mockCl { Id := "group1" }` produces. -/
def mockGroup1 : Group :=
  { DN := "CN=group1,DC=x"
    Id := "group1"
    Attributes := [("sAMAccountName", "group1")]
    Members := [{ DN := "CN=user1,DC=x", Id := "user1" }] }

/- ## Helper lemmas -/

theorem writesOf_append (s t : List Call) : writesOf (s ++ t) = writesOf s ++ writesOf t := by
  simp [writesOf, List.filter_append]

theorem writesOf_search (f : String) : writesOf [Call.search f] = [] := rfl

theorem writesOf_cons_search (f : String) (t : List Call) :
    writesOf (Call.search f :: t) = writesOf t := rfl

theorem writesOf_modify (d a : String) (v : List String) :
    writesOf [Call.modify d a v] = [Call.modify d a v] := rfl

theorem searchEntry_writes (cl : Client) (f : String) :
    writesOf (searchEntry cl f).snd = [] := rfl

theorem searchEntries_writes (cl : Client) (f : String) :
    writesOf (searchEntries cl f).snd = [] := rfl

theorem getUserGroups_writes (cl : Client) (dn : String) :
    writesOf (getUserGroups cl dn).snd = [] := by
  unfold getUserGroups searchEntries
  split <;> rename_i heq <;> (injection heq with h1 h2; rw [← h2]; rfl)

theorem getGroupMembers_writes (cl : Client) (dn : String) :
    writesOf (getGroupMembers cl dn).snd = [] := by
  unfold getGroupMembers searchEntries
  split <;> rename_i heq <;> (injection heq with h1 h2; rw [← h2]; rfl)

theorem foldl_filter_step {α : Type} (p : α → Bool) (l : List α) : ∀ acc : List α,
    l.foldl (fun r m => if p m then r ++ [m] else r) acc = acc ++ l.filter p := by
  induction l with
  | nil => intro acc; simp
  | cons x xs ih =>
    intro acc
    rw [List.foldl_cons, List.filter_cons]
    cases hx : p x
    · simp only [hx, if_false, cond_false, Bool.false_eq_true, ite_false]
      rw [ih acc]
    · simp only [hx, ite_true]
      rw [ih (acc ++ [x])]
      simp

theorem getUserByFilter_writes (cl : Client) (F : String) (skip : Bool) :
    writesOf (getUserByFilter cl F skip).snd = [] := by
  unfold getUserByFilter searchEntry
  cases hs : cl.dir.search F with
  | error e => simp [hs, Except.map, writesOf_search]
  | ok es =>
    cases es with
    | nil => simp [hs, Except.map, writesOf_search]
    | cons entry rest =>
      cases skip with
      | true => simp [hs, Except.map, writesOf_search]
      | false =>
        rcases hg : getUserGroups cl entry.DN with ⟨res, t2⟩
        have h2 := getUserGroups_writes cl entry.DN
        rw [hg] at h2
        have h2' : writesOf t2 = [] := h2
        cases res <;> simp [hs, hg, Except.map, writesOf_append, writesOf_search, writesOf_cons_search, h2']

theorem getGroupByFilter_writes (cl : Client) (F : String) (skip : Bool) :
    writesOf (getGroupByFilter cl F skip).snd = [] := by
  unfold getGroupByFilter searchEntry
  cases hs : cl.dir.search F with
  | error e => simp [hs, Except.map, writesOf_search]
  | ok es =>
    cases es with
    | nil => simp [hs, Except.map, writesOf_search]
    | cons entry rest =>
      cases skip with
      | true => simp [hs, Except.map, writesOf_search]
      | false =>
        rcases hg : getGroupMembers cl entry.DN with ⟨res, t2⟩
        have h2 := getGroupMembers_writes cl entry.DN
        rw [hg] at h2
        have h2' : writesOf t2 = [] := h2
        cases res <;> simp [hs, hg, Except.map, writesOf_append, writesOf_search, writesOf_cons_search, h2']

theorem GetUser_writes (cl : Client) (args : GetUserArgs) :
    writesOf (GetUser cl args).snd = [] := by
  unfold GetUser
  cases hv : args.Validate with
  | some e => rfl
  | none => exact getUserByFilter_writes cl (getUserFilter cl.cfg args) args.SkipGroupsSearch

theorem GetGroup_writes (cl : Client) (args : GetGroupArgs) :
    writesOf (GetGroup cl args).snd = [] := by
  unfold GetGroup
  cases hv : args.Validate with
  | some e => rfl
  | none => exact getGroupByFilter_writes cl (getGroupFilter cl.cfg args) args.SkipMembersSearch

theorem OldGetGroup_writes (cl : Client) (r : GetGroupequest) :
    writesOf (OldGetGroup cl r).snd = [] := by
  unfold OldGetGroup
  cases hv : r.Validate with
  | some e => rfl
  | none => exact getGroupByFilter_writes cl (oldGetGroupFilter cl.cfg r) r.SkipMembersSearch

theorem resolveAddMember_writes (cl : Client) (gid uid : String) :
    writesOf (resolveAddMember cl gid uid).snd = [] := by
  have hu := GetUser_writes cl { Id := uid }
  unfold resolveAddMember
  split <;> rename_i heq <;> rw [heq] at hu
  · exact hu
  · exact hu
  · split <;> exact hu

theorem resolveDelMember_writes (cl : Client) (gid uid : String) :
    writesOf (resolveDelMember cl gid uid).snd = [] := by
  have hu := GetUser_writes cl { Id := uid }
  unfold resolveDelMember
  split <;> rename_i heq <;> rw [heq] at hu
  · exact hu
  · exact hu
  · split <;> exact hu

theorem oldResolveAddMember_writes (cl : Client) (gid uid : String) :
    writesOf (oldResolveAddMember cl gid uid).snd = [] := by
  have hu := GetUser_writes cl { Id := uid }
  unfold oldResolveAddMember OldGetUser
  split <;> rename_i heq <;> rw [heq] at hu
  · exact hu
  · exact hu
  · split <;> exact hu

theorem resolveAll_writes {α : Type} (f : String → α × List Call)
    (hf : ∀ u, writesOf (f u).snd = []) :
    ∀ ids : List String, writesOf (resolveAll f ids).snd = [] := by
  intro ids
  induction ids with
  | nil => rfl
  | cons uid rest ih =>
    simp only [resolveAll]
    rw [writesOf_append, hf uid, ih]
    rfl

theorem popAdd_eq (g : Group) (toAdd : List String) :
    popAddGroupMembers g toAdd = g.MembersDn ++ toAdd := by
  unfold popAddGroupMembers
  split
  · rename_i h
    rw [List.isEmpty_iff] at h
    simp [h]
  · rfl

theorem popDel_eq (g : Group) (toDel : List String) :
    popDelGroupMembers g toDel = g.MembersDn.filter (fun dn => !(toDel.contains dn)) := by
  unfold popDelGroupMembers
  simpa using foldl_filter_step (fun dn => !(toDel.contains dn)) g.MembersDn []

theorem Add_err (cl : Client) (gid : String) (ids : List String) (g : Group) (e : String)
    (hg : (GetGroup cl { Id := gid }).fst = Except.ok (some g))
    (he : firstError (resolveAll (resolveAddMember cl gid) ids).fst = some e) :
    (AddGroupMembers cl gid ids).fst = (0, some e) ∧
    writesOf (AddGroupMembers cl gid ids).snd = [] := by
  have hT := GetGroup_writes cl { Id := gid }
  have hT2 := resolveAll_writes (resolveAddMember cl gid) (resolveAddMember_writes cl gid) ids
  unfold AddGroupMembers
  simp [hg, he, writesOf_append, hT, hT2]

theorem Del_err (cl : Client) (gid : String) (ids : List String) (g : Group) (e : String)
    (hg : (GetGroup cl { Id := gid }).fst = Except.ok (some g))
    (he : firstError (resolveAll (resolveDelMember cl gid) ids).fst = some e) :
    (DeleteGroupMembers cl gid ids).fst = (0, some e) ∧
    writesOf (DeleteGroupMembers cl gid ids).snd = [] := by
  have hT := GetGroup_writes cl { Id := gid }
  have hT2 := resolveAll_writes (resolveDelMember cl gid) (resolveDelMember_writes cl gid) ids
  unfold DeleteGroupMembers
  simp [hg, he, writesOf_append, hT, hT2]

theorem Add_noop (cl : Client) (gid : String) (ids : List String) (g : Group)
    (hg : (GetGroup cl { Id := gid }).fst = Except.ok (some g))
    (he : firstError (resolveAll (resolveAddMember cl gid) ids).fst = none)
    (h0 : collected (resolveAll (resolveAddMember cl gid) ids).fst = []) :
    (AddGroupMembers cl gid ids).fst = (0, none) ∧
    writesOf (AddGroupMembers cl gid ids).snd = [] := by
  have hT := GetGroup_writes cl { Id := gid }
  have hT2 := resolveAll_writes (resolveAddMember cl gid) (resolveAddMember_writes cl gid) ids
  unfold AddGroupMembers
  simp [hg, he, h0, writesOf_append, hT, hT2]

theorem Del_noop (cl : Client) (gid : String) (ids : List String) (g : Group)
    (hg : (GetGroup cl { Id := gid }).fst = Except.ok (some g))
    (he : firstError (resolveAll (resolveDelMember cl gid) ids).fst = none)
    (h0 : collected (resolveAll (resolveDelMember cl gid) ids).fst = []) :
    (DeleteGroupMembers cl gid ids).fst = (0, none) ∧
    writesOf (DeleteGroupMembers cl gid ids).snd = [] := by
  have hT := GetGroup_writes cl { Id := gid }
  have hT2 := resolveAll_writes (resolveDelMember cl gid) (resolveDelMember_writes cl gid) ids
  unfold DeleteGroupMembers
  simp [hg, he, h0, writesOf_append, hT, hT2]

theorem Add_write (cl : Client) (gid : String) (ids : List String) (g : Group)
    (hg : (GetGroup cl { Id := gid }).fst = Except.ok (some g))
    (he : firstError (resolveAll (resolveAddMember cl gid) ids).fst = none)
    (hne : collected (resolveAll (resolveAddMember cl gid) ids).fst ≠ []) :
    writesOf (AddGroupMembers cl gid ids).snd
      = [Call.modify g.DN "member"
          (popAddGroupMembers g (collected (resolveAll (resolveAddMember cl gid) ids).fst))] ∧
    (AddGroupMembers cl gid ids).fst
      = (match cl.dir.modify g.DN "member"
            (popAddGroupMembers g (collected (resolveAll (resolveAddMember cl gid) ids).fst)) with
         | some e => (0, some e)
         | none => ((collected (resolveAll (resolveAddMember cl gid) ids).fst).length, none)) := by
  have hT := GetGroup_writes cl { Id := gid }
  have hT2 := resolveAll_writes (resolveAddMember cl gid) (resolveAddMember_writes cl gid) ids
  have hEmpty : (collected (resolveAll (resolveAddMember cl gid) ids).fst).isEmpty = false := by
    cases hc : collected (resolveAll (resolveAddMember cl gid) ids).fst with
    | nil => exact absurd hc hne
    | cons a l => rfl
  unfold AddGroupMembers updateAttribute
  simp only [hg, he, hEmpty, Bool.false_eq_true, if_false, ite_false]
  cases hm : cl.dir.modify g.DN "member"
      (popAddGroupMembers g (collected (resolveAll (resolveAddMember cl gid) ids).fst)) with
  | none =>
    simp [hm, writesOf_append, hT, hT2, writesOf_modify]
  | some e2 =>
    simp [hm, writesOf_append, hT, hT2, writesOf_modify]

theorem Del_write (cl : Client) (gid : String) (ids : List String) (g : Group)
    (hg : (GetGroup cl { Id := gid }).fst = Except.ok (some g))
    (he : firstError (resolveAll (resolveDelMember cl gid) ids).fst = none)
    (hne : collected (resolveAll (resolveDelMember cl gid) ids).fst ≠ []) :
    writesOf (DeleteGroupMembers cl gid ids).snd
      = [Call.modify g.DN "member"
          (popDelGroupMembers g (collected (resolveAll (resolveDelMember cl gid) ids).fst))] ∧
    (DeleteGroupMembers cl gid ids).fst
      = (match cl.dir.modify g.DN "member"
            (popDelGroupMembers g (collected (resolveAll (resolveDelMember cl gid) ids).fst)) with
         | some e => (0, some e)
         | none => ((collected (resolveAll (resolveDelMember cl gid) ids).fst).length, none)) := by
  have hT := GetGroup_writes cl { Id := gid }
  have hT2 := resolveAll_writes (resolveDelMember cl gid) (resolveDelMember_writes cl gid) ids
  have hEmpty : (collected (resolveAll (resolveDelMember cl gid) ids).fst).isEmpty = false := by
    cases hc : collected (resolveAll (resolveDelMember cl gid) ids).fst with
    | nil => exact absurd hc hne
    | cons a l => rfl
  unfold DeleteGroupMembers updateAttribute
  simp only [hg, he, hEmpty, Bool.false_eq_true, if_false, ite_false]
  cases hm : cl.dir.modify g.DN "member"
      (popDelGroupMembers g (collected (resolveAll (resolveDelMember cl gid) ids).fst)) with
  | none =>
    simp [hm, writesOf_append, hT, hT2, writesOf_modify]
  | some e2 =>
    simp [hm, writesOf_append, hT, hT2, writesOf_modify]

theorem resolveAll_fst_cons {α : Type} (f : String → α × List Call) (uid : String)
    (rest : List String) :
    (resolveAll f (uid :: rest)).fst = (f uid).fst :: (resolveAll f rest).fst := rfl

theorem firstError_del_eq (cl : Client) (gid : String) (ids : List String) :
    firstError (resolveAll (resolveDelMember cl gid) ids).fst
      = firstError (resolveAll (resolveAddMember cl gid) ids).fst := by
  induction ids with
  | nil => rfl
  | cons x rest ih =>
    rw [resolveAll_fst_cons, resolveAll_fst_cons]
    rcases hu : GetUser cl { Id := x } with ⟨ur, ut⟩
    cases ur with
    | error e0 => simp [resolveAddMember, resolveDelMember, hu, firstError]
    | ok o =>
      cases o with
      | none => simp [resolveAddMember, resolveDelMember, hu, firstError, ih]
      | some u =>
        cases hm : u.IsGroupMember gid <;>
          simp [resolveAddMember, resolveDelMember, hu, hm, firstError, ih]

theorem firstError_isSome_of_mem (cl : Client) (gid : String) {ids : List String}
    {uid : String} (hmem : uid ∈ ids) {e0 : String}
    (herr : (GetUser cl { Id := uid }).fst = Except.error e0) :
    ∃ e, firstError (resolveAll (resolveAddMember cl gid) ids).fst = some e := by
  induction ids with
  | nil => cases hmem
  | cons x rest ih =>
    rw [resolveAll_fst_cons]
    rcases hx : (resolveAddMember cl gid x).fst with e | o
    · exact ⟨e, rfl⟩
    · rcases List.mem_cons.mp hmem with heq | hmem2
      · exfalso
        rcases hu : GetUser cl { Id := x } with ⟨ur, ut⟩
        rw [← heq] at hu
        rw [hu] at herr
        have hur : ur = Except.error e0 := herr
        subst hur
        rw [heq] at hu
        simp [resolveAddMember, hu] at hx
      · obtain ⟨e, he⟩ := ih hmem2
        exact ⟨e, he⟩

theorem resolveAll_skip (f : String → Except String (Option String) × List Call)
    (ids : List String) (h : ∀ uid ∈ ids, (f uid).fst = Except.ok none) :
    firstError (resolveAll f ids).fst = none ∧ collected (resolveAll f ids).fst = [] := by
  induction ids with
  | nil => exact ⟨rfl, rfl⟩
  | cons x rest ih =>
    have hx : (f x).fst = Except.ok none := h x (List.mem_cons_self x rest)
    obtain ⟨ih1, ih2⟩ := ih (fun uid hm => h uid (List.mem_cons_of_mem x hm))
    rw [resolveAll_fst_cons, hx]
    exact ⟨by simpa [firstError] using ih1, by simpa [collected] using ih2⟩

/- ## Claim theorems -/

/-- C1: for both membership operations, if the GetUser resolution of any
one requested identifier fails, the whole call returns that (wrapped,
first-in-schedule) resolution error with count 0 and performs no
attribute-replace write; already-completed resolutions are discarded. -/
theorem failFast_batch_abort (cl : Client) (gid : String) (ids : List String) (g : Group)
    (hg : (GetGroup cl { Id := gid }).fst = Except.ok (some g))
    (hex : ∃ uid ∈ ids, ∃ e0, (GetUser cl { Id := uid }).fst = Except.error e0) :
    ∃ e, firstError (resolveAll (resolveAddMember cl gid) ids).fst = some e ∧
      (AddGroupMembers cl gid ids).fst = (0, some e) ∧
      (DeleteGroupMembers cl gid ids).fst = (0, some e) ∧
      writesOf (AddGroupMembers cl gid ids).snd = [] ∧
      writesOf (DeleteGroupMembers cl gid ids).snd = [] := by
  obtain ⟨uid, hmem, e0, herr⟩ := hex
  obtain ⟨e, he⟩ := firstError_isSome_of_mem cl gid hmem herr
  have heD : firstError (resolveAll (resolveDelMember cl gid) ids).fst = some e := by
    rw [firstError_del_eq]
    exact he
  have hA := Add_err cl gid ids g e hg he
  have hD := Del_err cl gid ids g e hg heD
  exact ⟨e, he, hA.1, hD.1, hA.2, hD.2⟩

/-- Witness for C1: a batch containing the failing identifier `bad` aborts
both operations with the wrapped lookup error and no write. -/
theorem failFast_batch_abort_w :
    ∃ e, firstError (resolveAll (resolveAddMember mockCl "group1") ["user2", "bad"]).fst = some e ∧
      (AddGroupMembers mockCl "group1" ["user2", "bad"]).fst = (0, some e) ∧
      (DeleteGroupMembers mockCl "group1" ["user2", "bad"]).fst = (0, some e) ∧
      writesOf (AddGroupMembers mockCl "group1" ["user2", "bad"]).snd = [] ∧
      writesOf (DeleteGroupMembers mockCl "group1" ["user2", "bad"]).snd = [] :=
  failFast_batch_abort mockCl "group1" ["user2", "bad"] mockGroup1 rfl
    ⟨"bad", by simp, "error for tests", rfl⟩

/-- C3: when no requested identifier qualifies — for add, each resolves to
no record or to a user already a member; for delete, to no record or to a
user not currently a member — the call returns `(0, nil)` and performs no
write.  A second `AddGroupMembers` with the same identifier set after a
successful first call is the instance of this statement at a directory
state in which every previously-added identifier now resolves to a member,
so it returns `(0, nil)` with no write. -/
theorem noop_when_no_qualifier (cl : Client) (gid : String) (idsA idsD : List String)
    (g : Group)
    (hg : (GetGroup cl { Id := gid }).fst = Except.ok (some g))
    (hA : ∀ uid ∈ idsA, (resolveAddMember cl gid uid).fst = Except.ok none)
    (hD : ∀ uid ∈ idsD, (resolveDelMember cl gid uid).fst = Except.ok none) :
    (AddGroupMembers cl gid idsA).fst = (0, none) ∧
    writesOf (AddGroupMembers cl gid idsA).snd = [] ∧
    (DeleteGroupMembers cl gid idsD).fst = (0, none) ∧
    writesOf (DeleteGroupMembers cl gid idsD).snd = [] := by
  obtain ⟨heA, hcA⟩ := resolveAll_skip (resolveAddMember cl gid) idsA hA
  obtain ⟨heD, hcD⟩ := resolveAll_skip (resolveDelMember cl gid) idsD hD
  have h1 := Add_noop cl gid idsA g hg heA hcA
  have h2 := Del_noop cl gid idsD g hg heD hcD
  exact ⟨h1.1, h1.2, h2.1, h2.2⟩

/-- Witness for C3: adding an existing member and an unknown identifier,
and deleting a non-member and an unknown identifier, both no-op. -/
theorem noop_when_no_qualifier_w :
    (AddGroupMembers mockCl "group1" ["user1", "ghost"]).fst = (0, none) ∧
    writesOf (AddGroupMembers mockCl "group1" ["user1", "ghost"]).snd = [] ∧
    (DeleteGroupMembers mockCl "group1" ["user2", "ghost"]).fst = (0, none) ∧
    writesOf (DeleteGroupMembers mockCl "group1" ["user2", "ghost"]).snd = [] := by
  have h := noop_when_no_qualifier mockCl "group1" ["user1", "ghost"] ["user2", "ghost"]
    mockGroup1 rfl
    (by intro uid hm; fin_cases hm <;> rfl)
    (by intro uid hm; fin_cases hm <;> rfl)
  exact h

/-- C7: when a membership operation does write, its trace carries exactly
one attribute-replace of the full member-DN list to the group's DN, and on
write success the returned count is the number of identifiers that
qualified for addition (resp. removal), not the new list's size. -/
theorem single_replace_write_and_count (cl : Client) (gid : String)
    (idsA idsD : List String) (g : Group)
    (hg : (GetGroup cl { Id := gid }).fst = Except.ok (some g))
    (heA : firstError (resolveAll (resolveAddMember cl gid) idsA).fst = none)
    (hneA : collected (resolveAll (resolveAddMember cl gid) idsA).fst ≠ [])
    (heD : firstError (resolveAll (resolveDelMember cl gid) idsD).fst = none)
    (hneD : collected (resolveAll (resolveDelMember cl gid) idsD).fst ≠ []) :
    writesOf (AddGroupMembers cl gid idsA).snd
      = [Call.modify g.DN "member"
          (g.MembersDn ++ collected (resolveAll (resolveAddMember cl gid) idsA).fst)] ∧
    (cl.dir.modify g.DN "member"
        (popAddGroupMembers g (collected (resolveAll (resolveAddMember cl gid) idsA).fst)) = none →
      (AddGroupMembers cl gid idsA).fst
        = ((collected (resolveAll (resolveAddMember cl gid) idsA).fst).length, none)) ∧
    writesOf (DeleteGroupMembers cl gid idsD).snd
      = [Call.modify g.DN "member"
          (g.MembersDn.filter
            (fun dn => !((collected (resolveAll (resolveDelMember cl gid) idsD).fst).contains dn)))] ∧
    (cl.dir.modify g.DN "member"
        (popDelGroupMembers g (collected (resolveAll (resolveDelMember cl gid) idsD).fst)) = none →
      (DeleteGroupMembers cl gid idsD).fst
        = ((collected (resolveAll (resolveDelMember cl gid) idsD).fst).length, none)) := by
  obtain ⟨hwA, hfA⟩ := Add_write cl gid idsA g hg heA hneA
  obtain ⟨hwD, hfD⟩ := Del_write cl gid idsD g hg heD hneD
  have hpopA := popAdd_eq g (collected (resolveAll (resolveAddMember cl gid) idsA).fst)
  have hpopD := popDel_eq g (collected (resolveAll (resolveDelMember cl gid) idsD).fst)
  refine ⟨?_, ?_, ?_, ?_⟩
  · rw [hwA, hpopA]
  · intro hm
    rw [hfA, hm]
  · rw [hwD, hpopD]
  · intro hm
    rw [hfD, hm]

/-- Witness for C7: adding `user2` writes old-members ++ [user2 DN] and
returns count 1; deleting `user1` writes the filtered list and returns
count 1. -/
theorem single_replace_write_and_count_w :
    writesOf (AddGroupMembers mockCl "group1" ["user2"]).snd
      = [Call.modify "CN=group1,DC=x" "member" ["CN=user1,DC=x", "CN=user2,DC=x"]] ∧
    (AddGroupMembers mockCl "group1" ["user2"]).fst = (1, none) ∧
    writesOf (DeleteGroupMembers mockCl "group1" ["user1"]).snd
      = [Call.modify "CN=group1,DC=x" "member" []] ∧
    (DeleteGroupMembers mockCl "group1" ["user1"]).fst = (1, none) := by
  have h := single_replace_write_and_count mockCl "group1" ["user2"] ["user1"] mockGroup1
    rfl rfl (by decide) rfl (by decide)
  exact ⟨h.1, h.2.1 rfl, h.2.2.1, h.2.2.2 rfl⟩

/-- C4: the member-DN list computed before the write is, for add, the
existing member DNs in original order followed by the newly resolved DNs;
for remove, the existing member DNs with every DN matched for removal
excluded and nothing else added, removed, or reordered (pointwise filter
of the original list). -/
theorem pop_members_lists (g : Group) (toAdd toDel : List String) :
    popAddGroupMembers g toAdd = g.MembersDn ++ toAdd ∧
    popDelGroupMembers g toDel = g.MembersDn.filter (fun dn => !(toDel.contains dn)) :=
  ⟨popAdd_eq g toAdd, popDel_eq g toDel⟩

/-- C8: a GetUser or GetGroup request whose Id, Dn and Filter are all empty
fails validation with an error and makes no directory call at all (empty
call trace). -/
theorem validate_empty_args_no_call (cl : Client) (uArgs : GetUserArgs) (gArgs : GetGroupArgs)
    (h1 : uArgs.Id = "") (h2 : uArgs.Dn = "") (h3 : uArgs.Filter = "")
    (h4 : gArgs.Id = "") (h5 : gArgs.Dn = "") (h6 : gArgs.Filter = "") :
    GetUser cl uArgs = (Except.error "neither of ID, DN or Filter provided", []) ∧
    GetGroup cl gArgs = (Except.error "neither of ID, DN or Filter provided", []) := by
  constructor
  · unfold GetUser GetUserArgs.Validate
    simp [h1, h2, h3]
  · unfold GetGroup GetGroupArgs.Validate
    simp [h4, h5, h6]

/-- Witness for C8 at the all-empty request. -/
theorem validate_empty_args_no_call_w :
    GetUser mockCl {} = (Except.error "neither of ID, DN or Filter provided", []) ∧
    GetGroup mockCl {} = (Except.error "neither of ID, DN or Filter provided", []) :=
  validate_empty_args_no_call mockCl {} {} rfl rfl rfl rfl rfl rfl

theorem getUserByFilter_head (cl : Client) (F : String) (skip : Bool) :
    (getUserByFilter cl F skip).snd.head? = some (Call.search F) := by
  unfold getUserByFilter searchEntry
  cases hs : cl.dir.search F with
  | error e => simp [hs, Except.map]
  | ok es =>
    cases es with
    | nil => simp [hs, Except.map]
    | cons entry rest =>
      cases skip with
      | true => simp [hs, Except.map]
      | false =>
        rcases hg : getUserGroups cl entry.DN with ⟨res, t2⟩
        cases res <;> simp [hs, hg, Except.map]

theorem getGroupByFilter_head (cl : Client) (F : String) (skip : Bool) :
    (getGroupByFilter cl F skip).snd.head? = some (Call.search F) := by
  unfold getGroupByFilter searchEntry
  cases hs : cl.dir.search F with
  | error e => simp [hs, Except.map]
  | ok es =>
    cases es with
    | nil => simp [hs, Except.map]
    | cons entry rest =>
      cases skip with
      | true => simp [hs, Except.map]
      | false =>
        rcases hg : getGroupMembers cl entry.DN with ⟨res, t2⟩
        cases res <;> simp [hs, hg, Except.map]

theorem getUserByFilter_empty (cl : Client) (F : String) (skip : Bool)
    (h : cl.dir.search F = Except.ok []) :
    getUserByFilter cl F skip = (Except.ok none, [Call.search F]) := by
  unfold getUserByFilter searchEntry
  simp [h, Except.map]

theorem getGroupByFilter_empty (cl : Client) (F : String) (skip : Bool)
    (h : cl.dir.search F = Except.ok []) :
    getGroupByFilter cl F skip = (Except.ok none, [Call.search F]) := by
  unfold getGroupByFilter searchEntry
  simp [h, Except.map]

theorem getUserByFilter_ok (cl : Client) (F : String) (skip : Bool)
    (hall : ∀ f, ∃ es, cl.dir.search f = Except.ok es) :
    ∃ r, (getUserByFilter cl F skip).fst = Except.ok r := by
  unfold getUserByFilter searchEntry
  obtain ⟨es, hs⟩ := hall F
  cases es with
  | nil =>
    refine ⟨none, ?_⟩
    simp [hs, Except.map]
  | cons entry rest =>
    cases skip with
    | true =>
      refine ⟨some (userFromEntry cl.cfg entry), ?_⟩
      simp [hs, Except.map]
    | false =>
      obtain ⟨gs, hg2⟩ := hall (cl.cfg.Users.FilterGroupsByDn.subst (escapeFilter entry.DN))
      refine ⟨some { userFromEntry cl.cfg entry with
        Groups := gs.map (fun e => { DN := e.DN, Id := e.GetAttributeValue cl.cfg.Groups.IdAttribute }) }, ?_⟩
      simp [getUserGroups, searchEntries, hs, hg2, Except.map]

theorem getGroupByFilter_ok (cl : Client) (F : String) (skip : Bool)
    (hall : ∀ f, ∃ es, cl.dir.search f = Except.ok es) :
    ∃ r, (getGroupByFilter cl F skip).fst = Except.ok r := by
  unfold getGroupByFilter searchEntry
  obtain ⟨es, hs⟩ := hall F
  cases es with
  | nil =>
    refine ⟨none, ?_⟩
    simp [hs, Except.map]
  | cons entry rest =>
    cases skip with
    | true =>
      refine ⟨some (groupFromEntry cl.cfg entry), ?_⟩
      simp [hs, Except.map]
    | false =>
      obtain ⟨ms, hg2⟩ := hall (cl.cfg.Groups.FilterMembersByDn.subst (escapeFilter entry.DN))
      refine ⟨some { groupFromEntry cl.cfg entry with
        Members := ms.map (fun e => { DN := e.DN, Id := e.GetAttributeValue cl.cfg.Groups.IdAttribute }) }, ?_⟩
      simp [getGroupMembers, searchEntries, hs, hg2, Except.map]

/-- C10: the search filter of a GetUser/GetGroup lookup is chosen by fixed
precedence — an explicit Filter argument verbatim (no escaping); else the
by-DN template on the LDAP-escaped DN; else the by-Id template on the raw,
unescaped Id — and it heads the call trace. -/
theorem filter_precedence (cl : Client) (uArgs : GetUserArgs) (gArgs : GetGroupArgs)
    (h1 : uArgs.Validate = none) (h2 : gArgs.Validate = none) :
    (GetUser cl uArgs).snd.head? = some (Call.search
      (if uArgs.Filter ≠ "" then uArgs.Filter
       else if uArgs.Dn ≠ "" then cl.cfg.Users.FilterByDn.subst (escapeFilter uArgs.Dn)
       else cl.cfg.Users.FilterById.subst uArgs.Id)) ∧
    (GetGroup cl gArgs).snd.head? = some (Call.search
      (if gArgs.Filter ≠ "" then gArgs.Filter
       else if gArgs.Dn ≠ "" then cl.cfg.Groups.FilterByDn.subst (escapeFilter gArgs.Dn)
       else cl.cfg.Groups.FilterById.subst gArgs.Id)) := by
  constructor
  · unfold GetUser
    rw [h1]
    exact getUserByFilter_head cl (getUserFilter cl.cfg uArgs) uArgs.SkipGroupsSearch
  · unfold GetGroup
    rw [h2]
    exact getGroupByFilter_head cl (getGroupFilter cl.cfg gArgs) gArgs.SkipMembersSearch

/-- Witness for C10: an Id-only user lookup and an Id-only group lookup
head their traces with the by-Id filters. -/
theorem filter_precedence_w :
    (GetUser mockCl { Id := "user1" }).snd.head? = some (Call.search "(u-id=user1)") ∧
    (GetGroup mockCl { Id := "group1" }).snd.head? = some (Call.search "(g-id=group1)") := by
  have h := filter_precedence mockCl { Id := "user1" } { Id := "group1" } rfl rfl
  exact ⟨h.1, h.2⟩

/-- C9: a valid GetUser/GetGroup request whose search matches no entry
returns a nil result and a nil error (one search, no error); and when every
underlying search succeeds, a valid lookup never returns an error. -/
theorem absent_lookup_nil_nil (cl : Client) (uArgs : GetUserArgs) (gArgs : GetGroupArgs)
    (h1 : uArgs.Validate = none)
    (h2 : cl.dir.search (getUserFilter cl.cfg uArgs) = Except.ok [])
    (h3 : gArgs.Validate = none)
    (h4 : cl.dir.search (getGroupFilter cl.cfg gArgs) = Except.ok [])
    (h5 : ∀ f, ∃ es, cl.dir.search f = Except.ok es) :
    GetUser cl uArgs = (Except.ok none, [Call.search (getUserFilter cl.cfg uArgs)]) ∧
    GetGroup cl gArgs = (Except.ok none, [Call.search (getGroupFilter cl.cfg gArgs)]) ∧
    (∀ args : GetUserArgs, args.Validate = none → ∃ r, (GetUser cl args).fst = Except.ok r) ∧
    (∀ args : GetGroupArgs, args.Validate = none → ∃ r, (GetGroup cl args).fst = Except.ok r) := by
  refine ⟨?_, ?_, ?_, ?_⟩
  · unfold GetUser
    rw [h1]
    exact getUserByFilter_empty cl (getUserFilter cl.cfg uArgs) uArgs.SkipGroupsSearch h2
  · unfold GetGroup
    rw [h3]
    exact getGroupByFilter_empty cl (getGroupFilter cl.cfg gArgs) gArgs.SkipMembersSearch h4
  · intro args hv
    unfold GetUser
    rw [hv]
    exact getUserByFilter_ok cl (getUserFilter cl.cfg args) args.SkipGroupsSearch h5
  · intro args hv
    unfold GetGroup
    rw [hv]
    exact getGroupByFilter_ok cl (getGroupFilter cl.cfg args) args.SkipMembersSearch h5

/-- Witness for C9 at unknown identifiers against the always-succeeding
fixture. -/
theorem absent_lookup_nil_nil_w :
    GetUser mockOkCl { Id := "nobody" } = (Except.ok none, [Call.search "(u-id=nobody)"]) ∧
    GetGroup mockOkCl { Id := "nogroup" } = (Except.ok none, [Call.search "(g-id=nogroup)"]) := by
  have hall : ∀ f, ∃ es, mockOkCl.dir.search f = Except.ok es := by
    intro f
    show ∃ es, mockOkSearch f = Except.ok es
    unfold mockOkSearch
    split_ifs <;> exact ⟨_, rfl⟩
  have h := absent_lookup_nil_nil mockOkCl { Id := "nobody" } { Id := "nogroup" } rfl rfl rfl rfl hall
  exact ⟨h.1, h.2.1⟩

theorem old_new_getGroup (cl : Client) (gid : String) (hne : gid ≠ "") :
    OldGetGroup cl { Id := gid } = GetGroup cl { Id := gid } := by
  have h1 : GetGroupequest.Validate { Id := gid } = none := by
    unfold GetGroupequest.Validate
    simp [hne]
  have h2 : GetGroupArgs.Validate { Id := gid } = none := by
    unfold GetGroupArgs.Validate
    simp [hne]
  unfold OldGetGroup GetGroup
  simp only [h1, h2]
  rfl

theorem old_new_resolutions (cl : Client) (gid : String) (ids : List String)
    (h : ∀ uid ∈ ids, isOkResult (GetUser cl { Id := uid }).fst = true) :
    firstError (resolveAll (resolveAddMember cl gid) ids).fst = none ∧
    collectedOpts (resolveAll (oldResolveAddMember cl gid) ids).fst
      = collected (resolveAll (resolveAddMember cl gid) ids).fst ∧
    (resolveAll (oldResolveAddMember cl gid) ids).snd
      = (resolveAll (resolveAddMember cl gid) ids).snd := by
  induction ids with
  | nil => exact ⟨rfl, rfl, rfl⟩
  | cons x rest ih =>
    obtain ⟨ih1, ih2, ih3⟩ := ih (fun uid hm => h uid (List.mem_cons_of_mem x hm))
    have hx := h x (List.mem_cons_self x rest)
    rcases hu : GetUser cl { Id := x } with ⟨ur, ut⟩
    cases ur with
    | error e0 =>
      rw [hu] at hx
      simp [isOkResult] at hx
    | ok o =>
      cases o with
      | none =>
        simp [resolveAll, resolveAddMember, oldResolveAddMember, OldGetUser, hu,
          firstError, collected, collectedOpts, ih1, ih2, ih3]
      | some u =>
        cases hm : u.IsGroupMember gid <;>
          simp [resolveAll, resolveAddMember, oldResolveAddMember, OldGetUser, hu, hm,
            firstError, collected, collectedOpts, ih1, ih2, ih3]

theorem old_new_add_eq (cl : Client) (gid : String) (ids : List String) (hgid : gid ≠ "")
    (h : ∀ uid ∈ ids, isOkResult (GetUser cl { Id := uid }).fst = true) :
    OldAddGroupMembers cl gid ids = AddGroupMembers cl gid ids := by
  have hGG := old_new_getGroup cl gid hgid
  obtain ⟨he, hco, hsnd⟩ := old_new_resolutions cl gid ids h
  unfold OldAddGroupMembers AddGroupMembers
  simp only [hGG, hco, hsnd, he]

theorem Add_writes_shape (cl : Client) (gid : String) (ids : List String) :
    writesOf (AddGroupMembers cl gid ids).snd = [] ∨
    ∃ dn vals, writesOf (AddGroupMembers cl gid ids).snd = [Call.modify dn "member" vals] := by
  have hT := GetGroup_writes cl { Id := gid }
  have hT2 := resolveAll_writes (resolveAddMember cl gid) (resolveAddMember_writes cl gid) ids
  unfold AddGroupMembers updateAttribute
  rcases hp : (GetGroup cl { Id := gid }).fst with e | o
  · left
    simp [hp, hT]
  · cases o with
    | none =>
      left
      simp [hp, hT]
    | some g =>
      rcases he : firstError (resolveAll (resolveAddMember cl gid) ids).fst with _ | e
      · cases hc : (collected (resolveAll (resolveAddMember cl gid) ids).fst).isEmpty
        · right
          refine ⟨g.DN, popAddGroupMembers g (collected (resolveAll (resolveAddMember cl gid) ids).fst), ?_⟩
          cases hmod : cl.dir.modify g.DN "member"
              (popAddGroupMembers g (collected (resolveAll (resolveAddMember cl gid) ids).fst)) <;>
            simp [hp, he, hc, hmod, writesOf_append, hT, hT2, writesOf_modify]
        · left
          simp [hp, he, hc, writesOf_append, hT, hT2]
      · left
        simp [hp, he, writesOf_append, hT, hT2]

/-- C2: on any batch in which no per-identifier GetUser resolution fails,
the older AddGroupMembers (skip-on-error) and the current one (fail-fast)
agree: same returned count, same write calls, and the write calls are
either none or exactly one member-attribute replace. -/
theorem addGroupMembers_variants_agree (cl : Client) (gid : String) (ids : List String)
    (h : ∀ uid ∈ ids, isOkResult (GetUser cl { Id := uid }).fst = true) :
    (OldAddGroupMembers cl gid ids).fst.fst = (AddGroupMembers cl gid ids).fst.fst ∧
    writesOf (OldAddGroupMembers cl gid ids).snd = writesOf (AddGroupMembers cl gid ids).snd ∧
    (writesOf (AddGroupMembers cl gid ids).snd = [] ∨
      ∃ dn vals, writesOf (AddGroupMembers cl gid ids).snd = [Call.modify dn "member" vals]) := by
  by_cases hgid : gid = ""
  · subst hgid
    refine ⟨?_, ?_, Add_writes_shape cl "" ids⟩
    · simp [OldAddGroupMembers, AddGroupMembers, OldGetGroup, GetGroup,
        GetGroupequest.Validate, GetGroupArgs.Validate]
    · simp [OldAddGroupMembers, AddGroupMembers, OldGetGroup, GetGroup,
        GetGroupequest.Validate, GetGroupArgs.Validate]
  · have heq := old_new_add_eq cl gid ids hgid h
    exact ⟨by rw [heq], by rw [heq], Add_writes_shape cl gid ids⟩

/-- Witness for C2 on a batch mixing a new member, an unknown identifier
and an existing member. -/
theorem addGroupMembers_variants_agree_w :
    (OldAddGroupMembers mockCl "group1" ["user2", "ghost", "user1"]).fst.fst
      = (AddGroupMembers mockCl "group1" ["user2", "ghost", "user1"]).fst.fst ∧
    writesOf (OldAddGroupMembers mockCl "group1" ["user2", "ghost", "user1"]).snd
      = writesOf (AddGroupMembers mockCl "group1" ["user2", "ghost", "user1"]).snd ∧
    (writesOf (AddGroupMembers mockCl "group1" ["user2", "ghost", "user1"]).snd = [] ∨
      ∃ dn vals, writesOf (AddGroupMembers mockCl "group1" ["user2", "ghost", "user1"]).snd
        = [Call.modify dn "member" vals]) :=
  addGroupMembers_variants_agree mockCl "group1" ["user2", "ghost", "user1"]
    (by intro uid hm; fin_cases hm <;> rfl)

theorem pagedSearchLoop_exact (pre : List PageResp) (lastPage : PageResp)
    (rest : List (Except String PageResp))
    (hpre : ∀ r ∈ pre, pageStops r = false) (hlast : pageStops lastPage = true) :
    pagedSearchLoop ((pre ++ [lastPage]).map Except.ok ++ rest)
      = Except.ok (((pre ++ [lastPage]).map PageResp.entries).flatten) := by
  induction pre with
  | nil => simp [pagedSearchLoop, hlast]
  | cons r pre ih =>
    have hr : pageStops r = false := hpre r (List.mem_cons_self r pre)
    have ih2 := ih (fun x hx => hpre x (List.mem_cons_of_mem r hx))
    simp only [List.map_append, List.map_cons, List.map_nil, List.singleton_append,
      List.append_assoc] at ih2
    simp [pagedSearchLoop, hr, ih2]

/-- C5: for any page size, over any sequence of successful server responses
whose prefix keeps returning non-empty paging cookies and whose next
response stops the loop (no control, foreign control, or empty cookie),
the paging loop returns exactly the concatenation of the entries of those
pages — nothing dropped, nothing duplicated, later responses never
consumed — and ListUsers/ListGroups map exactly those entries (nil when
there are none). -/
theorem paged_listing_exact (cl : Client) (pageSize : Nat) (pre : List PageResp)
    (lastPage : PageResp) (rest : List (Except String PageResp))
    (hpre : ∀ r ∈ pre, pageStops r = false) (hlast : pageStops lastPage = true) :
    pagedSearchLoop ((pre ++ [lastPage]).map Except.ok ++ rest)
      = Except.ok (((pre ++ [lastPage]).map PageResp.entries).flatten) ∧
    ListUsers cl pageSize ((pre ++ [lastPage]).map Except.ok ++ rest)
      = (if (((pre ++ [lastPage]).map PageResp.entries).flatten).isEmpty then Except.ok none
         else Except.ok (some ((((pre ++ [lastPage]).map PageResp.entries).flatten).map
           (userFromEntry cl.cfg)))) ∧
    ListGroups cl pageSize ((pre ++ [lastPage]).map Except.ok ++ rest)
      = (if (((pre ++ [lastPage]).map PageResp.entries).flatten).isEmpty then Except.ok none
         else Except.ok (some ((((pre ++ [lastPage]).map PageResp.entries).flatten).map
           (listGroupFromEntry cl.cfg)))) := by
  have h := pagedSearchLoop_exact pre lastPage rest hpre hlast
  refine ⟨h, ?_, ?_⟩
  · unfold ListUsers
    rw [h]
  · unfold ListGroups
    rw [h]

/-- Fixture page: one entry, cookie continues. -/
def page1 : PageResp := { entries := [eUser1], controls := some (RespControl.paging [7]) }

/-- Fixture page: one entry, empty cookie ends the listing. -/
def page2 : PageResp := { entries := [eUser2], controls := some (RespControl.paging []) }

/-- Fixture page that a conforming loop never consumes. -/
def junkPage : PageResp := { entries := [eGroup1], controls := none }

/-- Witness for C5: two pages then an unconsumed response. -/
theorem paged_listing_exact_w :
    pagedSearchLoop (([page1] ++ [page2]).map Except.ok ++ [Except.ok junkPage])
      = Except.ok ((([page1] ++ [page2]).map PageResp.entries).flatten) ∧
    ListUsers mockCl 1 (([page1] ++ [page2]).map Except.ok ++ [Except.ok junkPage])
      = (if ((([page1] ++ [page2]).map PageResp.entries).flatten).isEmpty then Except.ok none
         else Except.ok (some (((([page1] ++ [page2]).map PageResp.entries).flatten).map
           (userFromEntry mockCl.cfg)))) ∧
    ListGroups mockCl 1 (([page1] ++ [page2]).map Except.ok ++ [Except.ok junkPage])
      = (if ((([page1] ++ [page2]).map PageResp.entries).flatten).isEmpty then Except.ok none
         else Except.ok (some (((([page1] ++ [page2]).map PageResp.entries).flatten).map
           (listGroupFromEntry mockCl.cfg)))) :=
  paged_listing_exact mockCl 1 [page1] page2 [Except.ok junkPage]
    (by intro r hr; fin_cases hr <;> rfl) rfl

/-- Configuration whose users and groups id-attributes differ. -/
def c6Cfg : Config :=
  { Users :=
      { IdAttribute := "uid"
        FilterById := { pre := "(u=", post := ")" }
        FilterByDn := { pre := "(ud=", post := ")" }
        FilterGroupsByDn := { pre := "(mo=", post := ")" } }
    Groups :=
      { IdAttribute := "cn"
        FilterById := { pre := "(g=", post := ")" }
        FilterByDn := { pre := "(gd=", post := ")" }
        FilterMembersByDn := { pre := "(m=", post := ")" } } }

/-- Client over `c6Cfg` (directory content irrelevant to the paged model). -/
def c6Cl : Client :=
  { cfg := c6Cfg, dir := { search := fun _ => Except.ok [], modify := fun _ _ _ => none } }

/-- A group entry carrying only the groups id-attribute `cn`. -/
def c6Entry : Entry :=
  { DN := "CN=g,DC=x", Attributes := [{ Name := "cn", Values := ["g1"] }] }

/-- The Group record the code produces from `c6Entry`: its Id is empty. -/
def c6Group : Group :=
  { DN := "CN=g,DC=x"
    Id := ""
    Attributes := [("cn", "g1")]
    Members := [] }

/-- C6, refuted on the code: `ListGroups` derives `Id` from the **Users**
id-attribute (group.go line 166), not the configured Groups id-attribute.
On an entry whose groups id-attribute `cn` is `"g1"` and whose users
id-attribute `uid` is absent, the produced record's Id is `""`, not
`"g1"` as the claim requires. -/
theorem listGroups_id_from_users_attribute :
    c6Entry.GetAttributeValue c6Cl.cfg.Groups.IdAttribute = "g1" ∧
    ListGroups c6Cl 10 [Except.ok { entries := [c6Entry], controls := none }]
      = Except.ok (some [c6Group]) ∧
    c6Group.Id ≠ "g1" := by
  refine ⟨rfl, rfl, by decide⟩

end Adc
